import Mathlib

/-!
Verification development for the StormWater-AI repository.

This file gives a shallow embedding, in Lean 4, of the parts of the
TypeScript code base that the specification's claims refer to:

* the response parser of the `AIAnalyzer` class
  (`parseAnalysisResponse`, `extractSection`, `extractInsights`,
  `extractRecommendations`), including a faithful operational model of
  the JavaScript regular expression
  `new RegExp(NAME + ":\\s*([\\s\\S]*?)(?=\\n\\n[A-Z]+:|$)", "i")`
  used by `extractSection`;
* the fallback path of `analyzeDocument` / `generateFallbackAnalysis`;
* the reference-context assembler `buildReferenceContext`;
* the Python subprocess runner `executeStormwaterAnalysis` /
  `executePythonScript` of `PythonInterpreter`, over an explicit
  file-system state and an explicit subprocess event;
* the `PluginManager` registration logic (`registerPlugin`,
  `unregisterPlugin`, `canLoadPlugin`, `getTotalMemoryUsage`,
  `getTotalCpuUsage`).

Strings are modelled by Lean `String` (a list of characters).  JavaScript
`String.prototype.length` counts UTF-16 code units while `String.length`
here counts code points; the two agree on all inputs without astral-plane
characters, and none of the claims hinge on the difference.
-/

namespace StormwaterAI

/-! ## JavaScript character classes and trimming

`jsSpace` is the character set matched by the JavaScript regex class `\s`
(and the set stripped by `String.prototype.trim`): tab, LF, VT, FF, CR,
space, NBSP, and the Unicode space separators, line/paragraph separators,
and the BOM. -/

def jsSpace (c : Char) : Bool :=
  let n := c.toNat
  n == 9 || n == 10 || n == 11 || n == 12 || n == 13 || n == 32 ||
  n == 0xA0 || n == 0x1680 || (0x2000 ≤ n && n ≤ 0x200A) ||
  n == 0x2028 || n == 0x2029 || n == 0x202F || n == 0x205F ||
  n == 0x3000 || n == 0xFEFF

/-- ASCII letter: what the class `[A-Z]` matches under the regex `i` flag
(with the `i` flag, `[A-Z]` matches both upper- and lower-case ASCII
letters; a non-ASCII character never canonicalizes into `A`–`Z` in a
non-Unicode-mode JavaScript regex). -/
def asciiLetter (c : Char) : Bool :=
  (('A' ≤ c) && (c ≤ 'Z')) || (('a' ≤ c) && (c ≤ 'z'))

/-- Case-insensitive character comparison as performed by a JavaScript
regex with the `i` flag when the pattern character is an ASCII letter or
`:` (the only pattern characters interpolated into the `extractSection`
regex). -/
def ciEq (c p : Char) : Bool :=
  c.toUpper == p.toUpper

/-- `String.prototype.trim` on a character list: strip leading and
trailing `jsSpace` characters. -/
def jsTrim (cs : List Char) : List Char :=
  ((cs.dropWhile jsSpace).reverse.dropWhile jsSpace).reverse

/-- `String.prototype.trim` on a `String`. -/
def jsTrimS (s : String) : String :=
  ⟨jsTrim s.data⟩

/-! ## The `extractSection` regex engine

Source (`AIAnalyzer.extractSection`):

```ts
private extractSection(text: string, sectionName: string): string {
  const regex = new RegExp(`${sectionName}:\\s*([\\s\\S]*?)(?=\\n\\n[A-Z]+:|$)`, 'i');
  const match = text.match(regex);
  return match ? match[1].trim() : '';
}
```

The model below is a direct operational reading of the backtracking
regex engine on this pattern, treating the interpolated `sectionName`
as a literal (it is always one of the alphabetic labels `ANALYSIS`,
`INSIGHTS`, `RECOMMENDATIONS`):

* the engine scans start positions left to right (`searchMatch`);
* at a start position it matches `sectionName:` case-insensitively
  (`labelAfter`; the `i` flag applies to the whole pattern);
* `\s*` is greedy: it first consumes the maximal whitespace run and
  gives characters back one at a time only if the continuation fails
  (`backtrackWs`);
* `([\s\S]*?)` is lazy: it grows the capture one character at a time,
  testing the lookahead at each position (`lazyScanOpt`);
* the lookahead `(?=\n\n[A-Z]+:|$)` succeeds at end of string (`$`
  without the `m` flag), or when the remaining text starts with two
  newline characters followed by one or more letters and a colon;
  because the `i` flag applies to the whole pattern, `[A-Z]+` here
  accepts letters of either case (`colonAfterLetters`). -/

/-- Lookahead alternative `\n\n[A-Z]+:` after the two newlines: some
positive number of (any-case, because of the `i` flag) ASCII letters
followed immediately by `:`.  Inside a lookahead only existence matters,
so trying the greedy `[A-Z]+` lengths in decreasing order is the same as
this existential scan. -/
def colonAfterLetters : List Char → Bool
  | [] => false
  | c :: rest =>
    if c == ':' then true
    else asciiLetter c && colonAfterLetters rest

/-- The note above scans "letter* then `:`"; `[A-Z]+:` additionally
requires at least one letter before the colon. -/
def headerAhead : List Char → Bool
  | c :: rest => asciiLetter c && colonAfterLetters rest
  | [] => false

/-- The full lookahead `(?=\n\n[A-Z]+:|$)` at a given suffix of the
input. -/
def lookaheadHolds (cs : List Char) : Bool :=
  match cs with
  | [] => true
  | c1 :: c2 :: rest => c1 == '\n' && c2 == '\n' && headerAhead rest
  | _ => false

/-- The lazy capture group `([\s\S]*?)` followed by the lookahead:
starting from the shortest capture, extend one character at a time until
the lookahead holds; `none` if it never does (in fact it always does,
because the lookahead holds at end of string — see
`lazyScanOpt_eq_takeToStop`). -/
def lazyScanOpt (acc : List Char) : List Char → Option (List Char)
  | [] => if lookaheadHolds [] then some acc.reverse else none
  | c :: rest =>
    if lookaheadHolds (c :: rest) then some acc.reverse
    else lazyScanOpt (c :: acc) rest

/-- Greedy `\s*` backtracking: `wsRev` is the (reversed) run of
whitespace currently consumed by `\s*`; if the continuation fails, give
the last whitespace character back to the input and retry. -/
def backtrackWs : List Char → List Char → Option (List Char)
  | [], tail => lazyScanOpt [] tail
  | c :: rest, tail =>
    match lazyScanOpt [] tail with
    | some cap => some cap
    | none => backtrackWs rest (c :: tail)

/-- Match the literal `sectionName:` case-insensitively at the head of
the input; return the remaining input on success. -/
def labelAfter : List Char → List Char → Option (List Char)
  | [], cs =>
    match cs with
    | c :: rest => if c == ':' then some rest else none
    | [] => none
  | n :: ns, cs =>
    match cs with
    | c :: rest => if ciEq c n then labelAfter ns rest else none
    | [] => none

/-- Attempt the whole pattern at one start position. -/
def matchAt (name cs : List Char) : Option (List Char) :=
  match labelAfter name cs with
  | none => none
  | some rest => backtrackWs (rest.takeWhile jsSpace).reverse (rest.dropWhile jsSpace)

/-- Leftmost match: try each start position in order. -/
def searchMatch (name : List Char) : List Char → Option (List Char)
  | [] => matchAt name []
  | c :: rest =>
    match matchAt name (c :: rest) with
    | some cap => some cap
    | none => searchMatch name rest

/-- `AIAnalyzer.extractSection` (argument order as in the source:
text first, then the section name). -/
def extractSection (text sectionName : String) : String :=
  match searchMatch sectionName.data text.data with
  | some cap => ⟨jsTrim cap⟩
  | none => ""

/-! ### Direct characterization of the matcher (used by claim C4)

The two definitions below are NOT translations of the source; they are
the closed-form description that the amended claim C4 states, to be
proved equal to the engine above. -/

/-- Closed form: the first start position where the label matches
case-insensitively, returning the rest of the input after the colon. -/
def findFirstLabel (name : List Char) : List Char → Option (List Char)
  | [] => labelAfter name []
  | c :: rest =>
    match labelAfter name (c :: rest) with
    | some r => some r
    | none => findFirstLabel name rest

/-- Closed form: the section body runs from the current position to the
first position where the lookahead holds (a blank line followed by an
any-case `WORD:` header), or to end of string. -/
def takeToStop : List Char → List Char
  | [] => []
  | c :: rest =>
    if lookaheadHolds (c :: rest) then []
    else c :: takeToStop rest

/-! ## Data model

`Document` (from `@shared/schema`) as consumed by the analyzer: only the
fields the analyzer reads are modelled. -/

structure SrcDocument where
  originalName : String
  content : String
  category : String
deriving DecidableEq, Repr

/-- One entry of `AnalysisResult.recommendations`.  In the source the
`category` field has the literal type `'stormwater'`; the loop always
sets `subcategory` while the two fallback items leave it `undefined`. -/
structure Recommendation where
  title : String
  content : String
  category : String
  subcategory : Option String
  citation : String
deriving DecidableEq, Repr

/-- The `AnalysisResult` interface of the analyzer. -/
structure AnalysisResult where
  analysis : String
  insights : List String
  recommendations : List Recommendation
deriving DecidableEq, Repr

/-! ## `extractInsights`

Source:

```ts
private extractInsights(text: string): string[] {
  const insightsSection = this.extractSection(text, 'INSIGHTS');
  if (!insightsSection) return ['Document successfully processed and indexed', 'Content is available for search and reference'];
  const insights = insightsSection
    .split(/[-â€¢*]\s*/)
    .filter(line => line.trim())
    .map(line => line.trim());
  return insights.slice(0, 5);
}
```

The character class in the source file is literally `[-â€¢*]` — the
three characters U+00E2, U+20AC, U+00A2 (the UTF-8 bytes of a bullet
`•` decoded as Latin-1), not the bullet itself.  So the separator
characters are `-`, `*`, and those three characters. -/

def isMarker (c : Char) : Bool :=
  c == '-' || c == '*' || c == Char.ofNat 0xE2 || c == Char.ofNat 0x20AC ||
  c == Char.ofNat 0xA2

def analysisLabel : String := "ANALYSIS"

def insightsLabel : String := "INSIGHTS"

def recommendationsLabel : String := "RECOMMENDATIONS"

/-- `String.prototype.split` on the regex `[-â€¢*]\s*`: each separator is
one marker character plus the (greedy) following run of whitespace.  The
boolean is true while the engine is inside the `\s*` tail of a
separator. -/
def splitRun (skipWs : Bool) (cur : List Char) : List Char → List (List Char)
  | [] => [cur.reverse]
  | c :: rest =>
    if skipWs && jsSpace c then splitRun true cur rest
    else if isMarker c then cur.reverse :: splitRun true [] rest
    else splitRun false (c :: cur) rest

def splitMarkers (cs : List Char) : List (List Char) :=
  splitRun false [] cs

def insightsFallback : List String :=
  ["Document successfully processed and indexed",
   "Content is available for search and reference"]

def extractInsights (text : String) : List String :=
  let insightsSection := extractSection text insightsLabel
  if insightsSection = "" then insightsFallback
  else
    (((splitMarkers insightsSection.data).filter
        (fun l => !(jsTrim l).isEmpty)).map
        (fun l => (⟨jsTrim l⟩ : String))).take 5

/-! ## `extractRecommendations`

Source (`AIAnalyzer.extractRecommendations`): splits the
RECOMMENDATIONS section into lines, keeps the lines whose trim is
non-empty, and for each line containing one of the four category
markers splits it on the separator `" - "`; a line with at least two
parts yields a recommendation whose citation is
`` `${document.originalName}, Section ${recommendations.length + 1}` ``
(a running 1-based counter).  The final list is `slice(0, 10)`; if the
section is absent the 1-item "Document Review Required" fallback is
returned. -/

def kwStormwater : String := "STORMWATER:"

def kwQsd : String := "QSD:"

def kwSwppp : String := "SWPPP:"

def kwErosion : String := "EROSION:"

/-- `String.prototype.includes` on character lists. -/
def hasSubSeq (pat : List Char) : List Char → Bool
  | [] => pat.isPrefixOf []
  | c :: rest => pat.isPrefixOf (c :: rest) || hasSubSeq pat rest

/-- `String.prototype.split('\n')`. -/
def splitNl (cur : List Char) : List Char → List (List Char)
  | [] => [cur.reverse]
  | c :: rest =>
    if c == '\n' then cur.reverse :: splitNl [] rest
    else splitNl (c :: cur) rest

/-- `String.prototype.split(' - ')`: split at each leftmost,
non-overlapping occurrence of the three-character separator. -/
def splitDash (cur : List Char) : List Char → List (List Char)
  | ' ' :: '-' :: ' ' :: rest => cur.reverse :: splitDash [] rest
  | c :: rest => splitDash (c :: cur) rest
  | [] => [cur.reverse]

/-- `parts[0].replace(/^(STORMWATER|QSD|SWPPP|EROSION):\s*/, '')`:
strip one leading category marker (and the whitespace after it), if
present at the very start. -/
def stripRecMarker (cs : List Char) : List Char :=
  if kwStormwater.data.isPrefixOf cs then (cs.drop 11).dropWhile jsSpace
  else if kwQsd.data.isPrefixOf cs then (cs.drop 4).dropWhile jsSpace
  else if kwSwppp.data.isPrefixOf cs then (cs.drop 6).dropWhile jsSpace
  else if kwErosion.data.isPrefixOf cs then (cs.drop 8).dropWhile jsSpace
  else cs

/-- The subcategory assignment: `QSD:` is checked first, then `SWPPP:`,
then `EROSION:`; otherwise `'General'`. -/
def recSubcategory (line : List Char) : String :=
  if hasSubSeq kwQsd.data line then "QSD"
  else if hasSubSeq kwSwppp.data line then "SWPPP"
  else if hasSubSeq kwErosion.data line then "Erosion Control"
  else "General"

def lineHasRecMarker (line : List Char) : Bool :=
  hasSubSeq kwStormwater.data line || hasSubSeq kwQsd.data line ||
  hasSubSeq kwSwppp.data line || hasSubSeq kwErosion.data line

/-- The body of the `for (const line of lines)` loop, carried out over
the filtered lines with the accumulated recommendation list (the
citation ordinal is `recommendations.length + 1` at push time). -/
def recLoop (docName : String) (acc : List Recommendation) :
    List (List Char) → List Recommendation
  | [] => acc
  | line :: rest =>
    if lineHasRecMarker line then
      match splitDash [] line with
      | p0 :: p1 :: ps =>
        recLoop docName
          (acc ++ [{ title := ⟨jsTrim (stripRecMarker p0)⟩
                     content := ⟨jsTrim (List.intercalate (' ' :: '-' :: ' ' :: []) (p1 :: ps))⟩
                     category := "stormwater"
                     subcategory := some (recSubcategory line)
                     citation := docName ++ ", Section " ++ toString (acc.length + 1) }])
          rest
      | _ => recLoop docName acc rest
    else recLoop docName acc rest

def recommendationsFallback (docName : String) : List Recommendation :=
  [{ title := "Document Review Required"
     content := "This document has been processed and is available for search. Manual review is recommended to extract specific engineering recommendations."
     category := "stormwater"
     subcategory := none
     citation := docName ++ ", Full Document" }]

def extractRecommendations (text : String) (doc : SrcDocument) :
    List Recommendation :=
  let recommendationsSection := extractSection text recommendationsLabel
  if recommendationsSection = "" then recommendationsFallback doc.originalName
  else
    let lines := (splitNl [] recommendationsSection.data).filter
      (fun l => !(jsTrim l).isEmpty)
    (recLoop doc.originalName [] lines).take 10

/-! ## `parseAnalysisResponse`, `generateFallbackAnalysis`,
`analyzeDocument` -/

/-- The `||`-fallback string substituted when the ANALYSIS section is
absent. -/
def analysisFallbackText (doc : SrcDocument) : String :=
  "Document analysis for " ++ (doc.originalName ++ (" (" ++ (doc.category ++
  ("). The document contains " ++ (toString doc.content.length ++
  " characters of content related to stormwater management.")))))

def parseAnalysisResponse (analysisText : String) (doc : SrcDocument) :
    AnalysisResult :=
  let analysis :=
    let s := extractSection analysisText analysisLabel
    if s = "" then analysisFallbackText doc else s
  { analysis := analysis
    insights := extractInsights analysisText
    recommendations := extractRecommendations analysisText doc }

/-- `generateFallbackAnalysis(document, query?)`.  The
`` ${query ? `Query: ${query}. ` : ''} `` interpolation uses JavaScript
truthiness, so an empty-string query behaves like an absent one. -/
def fallbackQueryPart (query : Option String) : String :=
  match query with
  | none => ""
  | some q => if q = "" then "" else "Query: " ++ q ++ ". "

def generateFallbackAnalysis (doc : SrcDocument) (query : Option String) :
    AnalysisResult :=
  { analysis :=
      "Document analysis for " ++ (doc.originalName ++ (" (" ++ (doc.category ++
      ("). " ++ (fallbackQueryPart query ++ ("The document contains " ++
      (toString doc.content.length ++
      " characters of content related to stormwater management. Due to AI service limitations, detailed analysis is not available at this time.")))))))
    insights :=
      ["Document successfully processed and indexed",
       "Content is available for search and reference",
       "Manual review recommended for detailed insights"]
    recommendations := recommendationsFallback doc.originalName }

/-- Outcome of the guarded region of `analyzeDocument` (everything
inside the `try`): either the external model call completed and the
first text block of the reply was obtained, or something threw — a
transport error, an HTTP 429 rate-limit error, or any other failure.
The `catch` treats them all alike. -/
inductive ApiCall where
  | replyText (t : String)
  | rateLimited
  | transportError (msg : String)
deriving DecidableEq, Repr

def ApiCall.failed : ApiCall → Bool
  | .replyText _ => false
  | .rateLimited => true
  | .transportError _ => true

/-- `AIAnalyzer.analyzeDocument`: without an API key the fallback is
returned at once; otherwise the guarded region runs and every thrown
error is caught and converted to the same fallback; a completed call
ends in `parseAnalysisResponse` on the reply text (this is where both
`analyzeImageWithContext` and `analyzeDocumentWithContext` funnel
their replies).  The function is total: no exception propagates. -/
def analyzeDocument (hasApiKey : Bool) (call : ApiCall)
    (doc : SrcDocument) (query : Option String) : AnalysisResult :=
  if !hasApiKey then generateFallbackAnalysis doc query
  else
    match call with
    | .replyText t => parseAnalysisResponse t doc
    | .rateLimited => generateFallbackAnalysis doc query
    | .transportError _ => generateFallbackAnalysis doc query

/-! ## `buildReferenceContext`

Source:

```ts
private buildReferenceContext(allDocuments: Document[]): string {
  const referenceDocs = allDocuments
    .filter(doc => doc.content && doc.content.length > 50)
    .sort((a, b) => b.content.length - a.content.length);
  if (referenceDocs.length === 0) {
    return "No reference documents available in the library.";
  }
  const referenceContext = referenceDocs.map((doc) => {
    const preview = doc.content.substring(0, 1500);
    const docName = doc.originalName || 'Untitled Document';
    return `[REFERENCE: "${docName}"] (${doc.category})
FILE SIZE: ${(doc.content.length / 1024).toFixed(1)}KB
CONTENT EXTRACT: ${preview}${doc.content.length > 1500 ? '...[FULL DOCUMENT AVAILABLE]' : ''}
---`;
  }).join('\n');
  const bmpImplementationGuide = `...`;  // fixed text, embedded below
  return referenceContext + bmpImplementationGuide;
}
```

`Array.prototype.sort` is stable (ES2019), so the comparator
`(a, b) => b.content.length - a.content.length` produces the unique
stable descending-by-length ordering; the insertion sort below produces
the same ordering.  The `toFixed(1)` value is exact arithmetic here
because `length / 1024` is exactly representable as a binary double,
and `toFixed` rounds to the nearest multiple of `0.1`, half up. -/

/-- The fixed BMP implementation guide text appended to every
non-empty reference context (verbatim from the source template
literal). -/
def bmpImplementationGuide : String :=
  "\n\n**COMPREHENSIVE BMP IMPLEMENTATION DATABASE:**\n\n**EROSION CONTROL BMPs:**\n\nSilt Fence Installation:\n- Materials: Geotextile fabric (ASTM D4632, min 200 lb tensile), steel T-posts (6 ft), hardware cloth, zip ties\n- Quantities: 1 post per 6-8 feet, fabric height 36 inches\n- Installation: Dig 6-inch trench, install posts 3 feet deep, attach fabric with 6 inches above grade\n- Cost: $3-5 per linear foot (materials and labor)\n\nStraw Wattles:\n- Materials: Certified weed-free straw, biodegradable netting, wooden stakes (2x2 inches)\n- Installation: Create 6-inch deep trench on contour, stake every 4 feet, overlap ends 2 feet\n- Maintenance: Replace after 90% breakdown or loss of function\n- Cost: $8-12 per linear foot\n\nHydroseeding:\n- Materials: Seed mix (2-4 lbs/1000 sf), wood fiber mulch (1500-2000 lbs/acre), tackifier\n- Application: Mix in hydro-tank, spray evenly, water if no rain within 48 hours\n- Timing: Optimal planting seasons (spring/fall), avoid extreme weather\n- Cost: $0.15-0.30 per square foot\n\n**SEDIMENT CONTROL BMPs:**\n\nSediment Basin Construction:\n- Sizing: 1800 cf per acre of drainage area (minimum 2-year, 24-hour storm)\n- Materials: Excavation, outlet structure (riser pipe/orifice), emergency spillway, rip-rap\n- Installation: Compact bottom, install outlet, stabilize embankment\n- Maintenance: Remove sediment when 50% capacity reached\n- Cost: $2-8 per cubic foot\n\nCheck Dam Installation:\n- Materials: Rock (6-18 inch diameter), filter fabric, geotextile\n- Spacing: 200-300 feet apart in channels, center notch 12 inches deep\n- Installation: Excavate foundation, place fabric, install rock with center low\n- Cost: $50-200 per check dam\n\n**INFILTRATION BMPs:**\n\nBioretention Cell:\n- Sizing: 5-10% of drainage area, minimum 18-inch ponding depth\n- Materials: Engineered soil mix (sand/topsoil/compost), plants, underdrain system\n- Components: Pretreatment, ponding area, soil media (36-48 inches), underdrain\n- Plants: Native species, salt/pollution tolerant, varied root depths\n- Cost: $5-15 per square foot\n\nRain Garden:\n- Sizing: 20-30% of roof drainage area\n- Materials: Amended soil (50% sand, 30% topsoil, 20% compost), native plants\n- Installation: Excavate 6-18 inches deep, install overflow, plant selection\n- Maintenance: Weeding, mulching, plant replacement as needed\n- Cost: $3-8 per square foot\n\n**MATERIAL SPECIFICATIONS:**\n- Geotextile: ASTM D4632, minimum 200 lb tensile strength, UV stable\n- Aggregate: ASTM C33, clean washed stone, 1.5-2.5 inch diameter for rip-rap\n- Steel Posts: Galvanized T-posts, 6-foot length, driven 3 feet minimum\n- Seed Mix: Certified, 90% germination, appropriate for local climate\n- Filter Fabric: Non-woven, 140 gsm minimum, high flow rate\n\n**INSTALLATION TIMING:**\n- Best: Dry weather periods, avoid frozen ground\n- Seeding: Spring (March-May) or Fall (September-November)\n- Avoid: During rain events, extreme heat, or winter months"

def docDisplayName (doc : SrcDocument) : String :=
  if doc.originalName = "" then "Untitled Document" else doc.originalName

/-- `(len / 1024).toFixed(1)` for a natural `len`. -/
def kbFixed1 (len : Nat) : String :=
  let n := (10 * len + 512) / 1024
  toString (n / 10) ++ "." ++ toString (n % 10)

/-- The filter `doc => doc.content && doc.content.length > 50`
(JavaScript truthiness: the empty string is falsy). -/
def refDocFilter (doc : SrcDocument) : Bool :=
  doc.content != "" && decide (50 < doc.content.length)

/-- Stable insertion into a descending-by-content-length list: an
element is placed before the existing elements of equal length (which
originate later in the input), matching stable-sort order. -/
def insertDesc (d : SrcDocument) : List SrcDocument → List SrcDocument
  | [] => [d]
  | e :: rest =>
    if d.content.length < e.content.length then e :: insertDesc d rest
    else d :: e :: rest

def sortByLenDesc : List SrcDocument → List SrcDocument
  | [] => []
  | d :: rest => insertDesc d (sortByLenDesc rest)

/-- The filtered, stably length-descending-sorted reference list. -/
def referenceDocs (allDocuments : List SrcDocument) : List SrcDocument :=
  sortByLenDesc (allDocuments.filter refDocFilter)

/-- The per-document block of the reference context.  `substring(0,
1500)` is modelled as taking 1500 characters. -/
def docBlock (doc : SrcDocument) : String :=
  "[REFERENCE: \"" ++ docDisplayName doc ++ "\"] (" ++ doc.category ++
  ")\nFILE SIZE: " ++ kbFixed1 doc.content.length ++
  "KB\nCONTENT EXTRACT: " ++ (⟨doc.content.data.take 1500⟩ : String) ++
  (if decide (1500 < doc.content.length) then "...[FULL DOCUMENT AVAILABLE]"
   else "") ++ "\n---"

def noReferenceDocsMsg : String :=
  "No reference documents available in the library."

def buildReferenceContext (allDocuments : List SrcDocument) : String :=
  let docs := referenceDocs allDocuments
  if docs.isEmpty then noReferenceDocsMsg
  else String.intercalate ("\n") (docs.map docBlock) ++ bmpImplementationGuide

/-! ## `PythonInterpreter` (`src/python-interpreter.ts`)

The runner is modelled over an explicit file-system state (a list of
`(path, contents)` pairs, most recent write first) and an explicit
subprocess event. -/

abbrev FileSystem := List (String × String)

/-- `writeFileSync` (an overwrite shadows earlier entries). -/
def fsWrite (fs : FileSystem) (p c : String) : FileSystem :=
  (p, c) :: fs

/-- `existsSync`. -/
def fsExists (fs : FileSystem) (p : String) : Bool :=
  fs.any (fun e => e.1 == p)

/-- `readFileSync` (most recent write wins). -/
def fsRead (fs : FileSystem) (p : String) : Option String :=
  (fs.find? (fun e => e.1 == p)).map (fun e => e.2)

/-- `unlinkSync` (removes the file entirely). -/
def fsRemove (fs : FileSystem) (p : String) : FileSystem :=
  fs.filter (fun e => e.1 != p)

/-- `join(this.tempDir, ...)` for the three per-session temp files. -/
def scriptPathOf (dir sid : String) : String :=
  dir ++ "/script_" ++ sid ++ ".py"

def dataPathOf (dir sid : String) : String :=
  dir ++ "/data_" ++ sid ++ ".json"

def outputPathOf (dir sid : String) : String :=
  dir ++ "/output_" ++ sid ++ ".json"

/-- The result shape resolved by `executePythonScript`. -/
structure PyScriptResult where
  success : Bool
  output : Option String
  error : Option String
deriving DecidableEq, Repr

/-- The first event that settles the `executePythonScript` promise:
the `close` event with the process exit code (`null` when killed by a
signal), the `error` event of a failed spawn, or the 30-second timeout
(whose handler also invokes `pythonProcess.kill()`). -/
inductive ProcEvent where
  | closed (code : Option Int) (stdout stderr : String)
  | spawnFailed (msg : String)
  | timedOut
deriving DecidableEq, Repr

/-- `PythonInterpreter.executePythonScript`: how each event settles the
promise.  On `close`, `success` is `code === 0`; `output` is the
trimmed stdout and `error` the trimmed stderr or `undefined` when
blank. -/
def executePythonScript : ProcEvent → PyScriptResult
  | .closed code out err =>
    { success := code == some 0
      output := some (jsTrimS out)
      error := if jsTrimS err = "" then none else some (jsTrimS err) }
  | .spawnFailed msg =>
    { success := false
      output := none
      error := some ("Failed to start Python process: " ++ msg) }
  | .timedOut =>
    { success := false
      output := none
      error := some ("Python execution timed out after 30 seconds") }

/-- Which settling branch of `executePythonScript` also calls
`pythonProcess.kill()` — exactly the timeout handler. -/
def timeoutBranchKills : ProcEvent → Bool
  | .timedOut => true
  | _ => false

/-- The `analysis` object of the structured output JSON. -/
structure PyDataAnalysis where
  summary : String
  insights : List String
  recommendations : List String
deriving DecidableEq, Repr

/-- The shape of the output JSON file produced by the spawned script
(both top-level fields may be missing). -/
structure PyOutputJson where
  plots : Option (List String)
  analysis : Option PyDataAnalysis
deriving DecidableEq, Repr

/-- The `PythonExecutionResult` interface.  The normal path always
populates `plots` and `dataAnalysis` (they are optional in the
interface; only the `catch` path leaves `plots` undefined). -/
structure PythonExecutionResult where
  success : Bool
  output : Option String
  error : Option String
  plots : Option (List String)
  dataAnalysis : Option PyDataAnalysis
deriving DecidableEq, Repr

/-- Everything external to the runner during one invocation: the event
that settles the subprocess promise, what (if anything) the subprocess
left at the output path, and the behaviour of `JSON.parse` on the
output file contents (`none` models a thrown parse error, which the
source catches and ignores). -/
structure RunEnv where
  event : ProcEvent
  outputWritten : Option String
  parseJson : String → Option PyOutputJson

/-! ### `PythonInterpreter.executeStormwaterAnalysis` (non-throwing path)

`enhancedCode` stands for the string produced by
`prepareStormwaterEnvironment` (a pure string-template concatenation of
the fixed Python preamble and the user code; no claim depends on its
value, so theorems quantify over it) and `data` for the
`JSON.stringify(data, null, 2)` serialization when a payload is
provided.  Step order as in the source: write the data file (if any),
write the script, run the subprocess, read and best-effort-parse the
output file, delete all three temp files, and assemble the result. -/
/-- The file-system state after the data/script writes and the
subprocess run (the run may have left an output file). -/
def fsAfterRun (fs0 : FileSystem) (dir sid : String)
    (enhancedCode : String) (data : Option String) (env : RunEnv) : FileSystem :=
  let fs1 := match data with
    | some d => fsWrite fs0 (dataPathOf dir sid) d
    | none => fs0
  let fs2 := fsWrite fs1 (scriptPathOf dir sid) enhancedCode
  match env.outputWritten with
  | some oc => fsWrite fs2 (outputPathOf dir sid) oc
  | none => fs2

/-- The `analysisResults` value: if the output file exists it is read
and `JSON.parse`d inside a `try`; a parse failure (or a missing file)
leaves the empty object, modelled as `none`. -/
def parsedOutput (fs0 : FileSystem) (dir sid : String)
    (enhancedCode : String) (data : Option String) (env : RunEnv) :
    Option PyOutputJson :=
  let fs3 := fsAfterRun fs0 dir sid enhancedCode data env
  if fsExists fs3 (outputPathOf dir sid) then
    match fsRead fs3 (outputPathOf dir sid) with
    | some oc => env.parseJson oc
    | none => none
  else none

def executeStormwaterAnalysis (fs0 : FileSystem) (dir sid : String)
    (enhancedCode : String) (data : Option String) (env : RunEnv) :
    PythonExecutionResult × FileSystem :=
  let result := executePythonScript env.event
  let fs3 := fsAfterRun fs0 dir sid enhancedCode data env
  let analysisResults := parsedOutput fs0 dir sid enhancedCode data env
  let fs4 := fsRemove (fsRemove (fsRemove fs3 (scriptPathOf dir sid))
    (dataPathOf dir sid)) (outputPathOf dir sid)
  ({ success := result.success
     output := result.output
     error := result.error
     plots := some ((analysisResults.bind (fun r => r.plots)).getD [])
     dataAnalysis := some ((analysisResults.bind (fun r => r.analysis)).getD
       { summary := if result.success then "Python execution completed successfully"
                    else "Execution failed"
         insights := []
         recommendations := [] }) },
   fs4)

/-! ## `PluginManager` (`src/src/document-processor.ts` part 2)

Claim C10 assumes each plugin's `getResourceUsage()` reports its
declared `memoryUsage` / `cpuUsage` constants; every plugin module in
the repository declares them as nonnegative integer literals, so they
are modelled as `Nat`. -/

structure AIPlugin where
  id : String
  memoryUsage : Nat
  cpuUsage : Nat
deriving DecidableEq, Repr

structure PluginManager where
  plugins : List (String × AIPlugin)
deriving DecidableEq, Repr

def maxMemoryUsage : Nat := 4096

def maxCpuUsage : Nat := 80

def PluginManager.empty : PluginManager := ⟨[]⟩

def getTotalMemoryUsage (m : PluginManager) : Nat :=
  (m.plugins.map (fun e => e.2.memoryUsage)).sum

def getTotalCpuUsage (m : PluginManager) : Nat :=
  (m.plugins.map (fun e => e.2.cpuUsage)).sum

def canLoadPlugin (m : PluginManager) (p : AIPlugin) : Bool :=
  decide (getTotalMemoryUsage m + p.memoryUsage ≤ maxMemoryUsage) &&
  decide (getTotalCpuUsage m + p.cpuUsage ≤ maxCpuUsage)

/-- `Map.set`: replace in place if the key exists, else append. -/
def mapSet (l : List (String × AIPlugin)) (k : String) (v : AIPlugin) :
    List (String × AIPlugin) :=
  match l with
  | [] => [(k, v)]
  | e :: rest => if e.1 == k then (k, v) :: rest else e :: mapSet rest k v

/-- `PluginManager.registerPlugin`: the resource check precedes
`plugin.initialize()`; a thrown `initialize` (modelled by
`initOk = false`) is caught and the registry is left unchanged. -/
def registerPlugin (m : PluginManager) (p : AIPlugin) (initOk : Bool) :
    Bool × PluginManager :=
  if !canLoadPlugin m p then (false, m)
  else if !initOk then (false, m)
  else (true, ⟨mapSet m.plugins p.id p⟩)

/-- `PluginManager.unregisterPlugin`: unknown id returns false; a
thrown `shutdown` (modelled by `shutdownOk = false`) is caught before
the `delete`, leaving the registry unchanged. -/
def unregisterPlugin (m : PluginManager) (pid : String) (shutdownOk : Bool) :
    Bool × PluginManager :=
  match m.plugins.find? (fun e => e.1 == pid) with
  | none => (false, m)
  | some _ =>
    if shutdownOk then (true, ⟨m.plugins.filter (fun e => e.1 != pid)⟩)
    else (false, m)

/-- One observable registry operation. -/
inductive ManagerOp where
  | reg (p : AIPlugin) (initOk : Bool)
  | unreg (pid : String) (shutdownOk : Bool)
deriving Repr

def applyOp (m : PluginManager) : ManagerOp → PluginManager
  | .reg p i => (registerPlugin m p i).2
  | .unreg pid s => (unregisterPlugin m pid s).2

/-- The registry state reached from a fresh manager by a sequence of
register/unregister calls. -/
def runOps (ops : List ManagerOp) : PluginManager :=
  ops.foldl applyOp PluginManager.empty

/-! ## Vocabulary used in the claim statements -/

/-- `sub` occurs as a contiguous substring of `s`. -/
def strContains (s sub : String) : Prop :=
  ∃ a b : String, s = a ++ (sub ++ b)

/-! # Theorems -/

/-! ## Shared string lemmas -/

theorem string_append_assoc (a b c : String) : (a ++ b) ++ c = a ++ (b ++ c) :=
  congrArg String.mk (List.append_assoc a.data b.data c.data)

theorem string_append_ne_empty_left (a b : String) (h : a.data ≠ []) :
    a ++ b ≠ "" := by
  intro hab
  apply h
  have hdata : a.data ++ b.data = [] := congrArg String.data hab
  exact (List.append_eq_nil.mp hdata).1

theorem strContains_of_parts (s a sub b : String) (h : s = a ++ (sub ++ b)) :
    strContains s sub :=
  ⟨a, b, h⟩

/-- `jsTrim` written with Mathlib's `rdropWhile`. -/
theorem jsTrim_eq_rdropWhile (cs : List Char) :
    jsTrim cs = List.rdropWhile jsSpace (cs.dropWhile jsSpace) := rfl

theorem dropWhile_rdropWhile_dropWhile (p : Char → Bool) (cs : List Char) :
    List.dropWhile p (List.rdropWhile p (cs.dropWhile p)) =
      List.rdropWhile p (cs.dropWhile p) := by
  obtain ⟨t, ht⟩ := List.rdropWhile_prefix p (cs.dropWhile p)
  cases h : List.rdropWhile p (cs.dropWhile p) with
  | nil => simp
  | cons a rest =>
    rw [h] at ht
    have hcs : cs.dropWhile p = a :: (rest ++ t) := ht.symm
    have hnp : ¬p a = true := by
      intro hpa
      have h2 := List.dropWhile_idempotent p cs
      rw [hcs] at h2
      simp only [List.dropWhile_cons, hpa, if_pos] at h2
      have hle : (List.dropWhile p (rest ++ t)).length ≤ (rest ++ t).length :=
        (List.dropWhile_suffix p).sublist.length_le
      rw [h2] at hle
      simp at hle
    simp [List.dropWhile_cons, hnp]

theorem jsTrim_idem (cs : List Char) : jsTrim (jsTrim cs) = jsTrim cs := by
  rw [jsTrim_eq_rdropWhile, jsTrim_eq_rdropWhile]
  rw [dropWhile_rdropWhile_dropWhile]
  exact List.rdropWhile_idempotent _ _

/-! ## The `extractSection` collapse (claim C4)

The greedy `\s*` / lazy `([\s\S]*?)` backtracking in the
`extractSection` regex collapses to a closed form: because the
alternative `$` of the lookahead always succeeds at end of string, the
lazy scan never fails, so `\s*` keeps its maximal run and the capture
runs to the first position where the lookahead holds. -/

theorem lazyScanOpt_eq (cs : List Char) : ∀ acc : List Char,
    lazyScanOpt acc cs = some (acc.reverse ++ takeToStop cs) := by
  induction cs with
  | nil =>
    intro acc
    simp [lazyScanOpt, takeToStop, lookaheadHolds]
  | cons c rest ih =>
    intro acc
    by_cases h : lookaheadHolds (c :: rest) = true
    · simp [lazyScanOpt, takeToStop, h]
    · rw [Bool.not_eq_true] at h
      simp [lazyScanOpt, takeToStop, h, ih]

theorem backtrackWs_eq (wsRev tail : List Char) :
    backtrackWs wsRev tail = some (takeToStop tail) := by
  cases wsRev with
  | nil =>
    rw [backtrackWs, lazyScanOpt_eq]
    simp
  | cons c rest =>
    rw [backtrackWs, lazyScanOpt_eq]
    simp

theorem matchAt_eq (name cs : List Char) :
    matchAt name cs =
      (labelAfter name cs).map (fun rest => takeToStop (rest.dropWhile jsSpace)) := by
  cases h : labelAfter name cs with
  | none => simp [matchAt, h]
  | some rest => simp [matchAt, h, backtrackWs_eq]

theorem searchMatch_eq (name : List Char) : ∀ cs : List Char,
    searchMatch name cs =
      (findFirstLabel name cs).map (fun rest => takeToStop (rest.dropWhile jsSpace)) := by
  intro cs
  induction cs with
  | nil =>
    rw [searchMatch, findFirstLabel, matchAt_eq]
  | cons c rest ih =>
    rw [searchMatch, matchAt_eq, findFirstLabel]
    cases labelAfter name (c :: rest) with
    | none => simpa using ih
    | some r => rfl

/-- Claim C4 (amended).  For every reply text and section name, the
label is matched case-insensitively at its first occurrence, the
whitespace after the label's colon is consumed greedily, and the
section body extends from there to the first position at which a blank
line is followed by an alphabetic word of ANY case and a colon
(`lookaheadHolds` / `takeToStop` use the any-case `asciiLetter`), or to
the end of the string; the body is then trimmed.  In particular a
lower-case or mixed-case `word:` header after a blank line DOES
terminate the section — the `i` flag of the source regex applies to the
`[A-Z]+` delimiter as well, contrary to the original claim. -/
theorem c4_section_rule_amended (text sectionName : String) :
    extractSection text sectionName =
      (match findFirstLabel sectionName.data text.data with
       | none => ""
       | some rest => (⟨jsTrim (takeToStop (rest.dropWhile jsSpace))⟩ : String)) := by
  rw [extractSection, searchMatch_eq]
  cases findFirstLabel sectionName.data text.data with
  | none => rfl
  | some rest => rfl

/-- Counterexample to claim C4 as stated: in
`"ANALYSIS: foo\n\nbar: baz"` the lower-case header `bar:` after the
blank line terminates the ANALYSIS section (the code returns `"foo"`),
whereas the claim says a lower-case `word:` does not terminate the
body, which would make the body `"foo\n\nbar: baz"`. -/
theorem c4_lowercase_header_cex :
    extractSection ("ANALYSIS: foo\n\nbar: baz") analysisLabel = ("foo") ∧
    extractSection ("ANALYSIS: foo\n\nbar: baz") analysisLabel ≠ ("foo\n\nbar: baz") := by
  constructor
  · decide
  · decide

/-! ## Parser output facts (claims C1, C3, C9) -/

/-- The output of `extractSection` is already trimmed. -/
theorem extractSection_trimmed (text name : String) :
    jsTrim (extractSection text name).data = (extractSection text name).data := by
  unfold extractSection
  cases searchMatch name.data text.data with
  | none => simp [jsTrim]
  | some cap => simp [jsTrim_idem]

/-- Splitting on the bullet-marker regex is the identity (one fragment)
when the input contains no marker characters. -/
theorem splitRun_no_marker (cs : List Char) : ∀ cur : List Char,
    (∀ c ∈ cs, isMarker c = false) →
    splitRun false cur cs = [cur.reverse ++ cs] := by
  induction cs with
  | nil =>
    intro cur _
    simp [splitRun]
  | cons c rest ih =>
    intro cur h
    have hc : isMarker c = false := h c (by simp)
    have hrec := ih (c :: cur) (fun x hx => h x (List.mem_cons_of_mem _ hx))
    simp [splitRun, hc, hrec]

/-- Claim C1 (amended).  The `analysis` field is non-empty for every
input; the `insights` and `recommendations` fields are non-empty
whenever their section is absent from the reply (the documented
fallbacks then apply).  When a section is present, however, its
extracted list may be empty — see `c1_empty_recommendations_cex` — so
the original all-inputs never-empty guarantee holds only for
`analysis`. -/
theorem c1_never_empty_amended (text : String) (doc : SrcDocument) :
    (parseAnalysisResponse text doc).analysis ≠ "" ∧
    (extractSection text insightsLabel = "" →
      (parseAnalysisResponse text doc).insights ≠ []) ∧
    (extractSection text recommendationsLabel = "" →
      (parseAnalysisResponse text doc).recommendations ≠ []) := by
  refine ⟨?_, ?_, ?_⟩
  · simp only [parseAnalysisResponse]
    by_cases h : extractSection text analysisLabel = ""
    · rw [if_pos h]
      exact string_append_ne_empty_left _ _ (by decide)
    · rw [if_neg h]
      exact h
  · intro h
    simp [parseAnalysisResponse, extractInsights, h, insightsFallback]
  · intro h
    simp [parseAnalysisResponse, extractRecommendations, h, recommendationsFallback]

/-- Witness for `c1_never_empty_amended` at the empty reply (both
sections absent, so both fallback lists apply). -/
theorem c1_never_empty_witness :
    (parseAnalysisResponse ("") (⟨"site.pdf", "abc", "stormwater"⟩ : SrcDocument)).insights ≠ [] ∧
    (parseAnalysisResponse ("") (⟨"site.pdf", "abc", "stormwater"⟩ : SrcDocument)).recommendations ≠ [] :=
  ⟨(c1_never_empty_amended ("") ⟨"site.pdf", "abc", "stormwater"⟩).2.1 (by decide),
   (c1_never_empty_amended ("") ⟨"site.pdf", "abc", "stormwater"⟩).2.2 (by decide)⟩

/-- Counterexample to claim C1 as stated: a reply whose RECOMMENDATIONS
section is present but contains no category-marker line parses to an
EMPTY recommendations list (the fallback item is substituted only when
the section is absent), so not all three fields are always
populated. -/
theorem c1_empty_recommendations_cex :
    (parseAnalysisResponse ("RECOMMENDATIONS: review the site map")
      (⟨"site.pdf", "abc", "stormwater"⟩ : SrcDocument)).recommendations = [] := by
  decide

/-- Claim C3.  For every raw reply text and source document the parser
output satisfies the truncation bounds: at most 5 insights and at most
10 recommendations. -/
theorem c3_bounded_output (text : String) (doc : SrcDocument) :
    (parseAnalysisResponse text doc).insights.length ≤ 5 ∧
    (parseAnalysisResponse text doc).recommendations.length ≤ 10 := by
  constructor
  · simp only [parseAnalysisResponse, extractInsights]
    split
    · simp [insightsFallback]
    · simp
  · simp only [parseAnalysisResponse, extractRecommendations]
    split
    · simp [recommendationsFallback]
    · simp

/-- Claim C9 (amended).  When the INSIGHTS section is absent (its
extraction is empty) the 2-item generic fallback is returned.  When the
section is present but its body contains NO bullet-marker characters,
the result is the single whole-body item — not the fallback, contrary
to the original claim.  (With markers present the body is split on
them, trimmed, filtered and capped at 5, per the definition of
`extractInsights`; the marker characters of the source's character
class are `-`, `*`, and the three mojibake characters U+00E2, U+20AC,
U+00A2 — not the bullet `•`.) -/
theorem c9_insights_amended (text : String) :
    (extractSection text insightsLabel = "" → extractInsights text = insightsFallback) ∧
    (∀ s : String, extractSection text insightsLabel = s → s ≠ "" →
      (∀ c ∈ s.data, isMarker c = false) → extractInsights text = [s]) := by
  constructor
  · intro h
    simp [extractInsights, h]
  · intro s hs hne hnm
    rw [extractInsights, hs, if_neg hne]
    have htrim : jsTrim s.data = s.data := by
      rw [← hs]
      exact extractSection_trimmed text insightsLabel
    have hsplit : splitMarkers s.data = [s.data] := by
      rw [splitMarkers, splitRun_no_marker s.data [] hnm]
      rfl
    have hdata : s.data ≠ [] := by
      intro hnil
      apply hne
      cases s
      simp_all
    rw [hsplit]
    simp [htrim, List.isEmpty_iff, hdata]

/-- Witness for `c9_insights_amended`: a reply without an INSIGHTS
section yields the fallback; a bullet-less INSIGHTS body yields the
single whole-body item. -/
theorem c9_insights_witness :
    extractInsights ("no sections at all") = insightsFallback ∧
    extractInsights ("INSIGHTS: abc") = [("abc" : String)] :=
  ⟨(c9_insights_amended ("no sections at all")).1 (by decide),
   (c9_insights_amended ("INSIGHTS: abc")).2 ("abc") (by decide) (by decide) (by decide)⟩

/-- Counterexample to claim C9 as stated: `"INSIGHTS: hello"` has an
INSIGHTS body with no bullet markers, yet the extraction returns the
1-item list `["hello"]`, not the 2-item generic fallback the claim
prescribes. -/
theorem c9_no_bullets_cex :
    extractInsights ("INSIGHTS: hello") = [("hello" : String)] ∧
    extractInsights ("INSIGHTS: hello") ≠ insightsFallback := by
  constructor
  · decide
  · decide

/-! ## Claim C2: fallback on external-call failure -/

/-- Claim C2.  If the external model call cannot be completed — no API
key configured, a thrown transport error, or an HTTP 429 rate-limit
error — `analyzeDocument` returns the deterministic locally synthesized
fallback (`generateFallbackAnalysis`), whose analysis text contains the
document's original name and its content character count.  No exception
propagates: the model function is total, mirroring the catch-all
`try`/`catch` of the source. -/
theorem c2_fallback_on_failure (doc : SrcDocument) (query : Option String)
    (hasApiKey : Bool) (call : ApiCall)
    (h : hasApiKey = false ∨ call.failed = true) :
    analyzeDocument hasApiKey call doc query = generateFallbackAnalysis doc query ∧
    strContains (generateFallbackAnalysis doc query).analysis doc.originalName ∧
    strContains (generateFallbackAnalysis doc query).analysis
      (toString doc.content.length) := by
  have heq : analyzeDocument hasApiKey call doc query = generateFallbackAnalysis doc query := by
    rcases h with h | h
    · simp [analyzeDocument, h]
    · cases call with
      | replyText t => simp [ApiCall.failed] at h
      | rateLimited => cases hasApiKey <;> simp [analyzeDocument]
      | transportError m => cases hasApiKey <;> simp [analyzeDocument]
  refine ⟨heq, ?_, ?_⟩
  · exact ⟨("Document analysis for "),
      (" (" ++ (doc.category ++ ("). " ++ (fallbackQueryPart query ++
       ("The document contains " ++ (toString doc.content.length ++
       " characters of content related to stormwater management. Due to AI service limitations, detailed analysis is not available at this time.")))))),
      rfl⟩
  · refine ⟨("Document analysis for " ++ (doc.originalName ++ (" (" ++
      (doc.category ++ ("). " ++ (fallbackQueryPart query ++
      "The document contains ")))))),
      (" characters of content related to stormwater management. Due to AI service limitations, detailed analysis is not available at this time."),
      ?_⟩
    simp only [generateFallbackAnalysis, string_append_assoc]

/-- Witness for `c2_fallback_on_failure`: a 429 rate-limit failure on a
concrete document. -/
theorem c2_fallback_witness :
    analyzeDocument true ApiCall.rateLimited
        (⟨"plan.pdf", "xyz", "stormwater"⟩ : SrcDocument) none =
      generateFallbackAnalysis (⟨"plan.pdf", "xyz", "stormwater"⟩ : SrcDocument) none ∧
    strContains (generateFallbackAnalysis
        (⟨"plan.pdf", "xyz", "stormwater"⟩ : SrcDocument) none).analysis ("plan.pdf") ∧
    strContains (generateFallbackAnalysis
        (⟨"plan.pdf", "xyz", "stormwater"⟩ : SrcDocument) none).analysis ("3") :=
  c2_fallback_on_failure ⟨"plan.pdf", "xyz", "stormwater"⟩ none true
    ApiCall.rateLimited (Or.inr rfl)

/-! ## Claim C8: synthesized citation ordinals -/

theorem recLoop_citation_inv (docName : String) (lines : List (List Char)) :
    ∀ acc : List Recommendation,
    (∀ k (hk : k < acc.length),
      (acc.get ⟨k, hk⟩).citation = docName ++ ", Section " ++ toString (k + 1)) →
    ∀ k (hk : k < (recLoop docName acc lines).length),
      ((recLoop docName acc lines).get ⟨k, hk⟩).citation =
        docName ++ ", Section " ++ toString (k + 1) := by
  induction lines with
  | nil =>
    intro acc hacc
    simpa [recLoop] using hacc
  | cons line rest ih =>
    intro acc hacc
    by_cases hmark : lineHasRecMarker line = true
    · rcases hsplit : splitDash [] line with _ | ⟨p0, _ | ⟨p1, ps⟩⟩
      · have hstep : recLoop docName acc (line :: rest) = recLoop docName acc rest := by
          rw [recLoop, if_pos hmark, hsplit]
        rw [hstep]
        exact ih acc hacc
      · have hstep : recLoop docName acc (line :: rest) = recLoop docName acc rest := by
          rw [recLoop, if_pos hmark, hsplit]
        rw [hstep]
        exact ih acc hacc
      · have hstep : recLoop docName acc (line :: rest) =
            recLoop docName (acc ++
              [{ title := ⟨jsTrim (stripRecMarker p0)⟩
                 content := ⟨jsTrim (List.intercalate (' ' :: '-' :: ' ' :: []) (p1 :: ps))⟩
                 category := "stormwater"
                 subcategory := some (recSubcategory line)
                 citation := docName ++ ", Section " ++ toString (acc.length + 1) }]) rest := by
          rw [recLoop, if_pos hmark, hsplit]
        rw [hstep]
        apply ih
        intro k hk
        simp only [List.get_eq_getElem] at hacc ⊢
        rcases Nat.lt_or_ge k acc.length with hlt | hge
        · rw [List.getElem_append_left hlt]
          exact hacc k hlt
        · have hklen : k = acc.length := by
            simp at hk
            omega
          rw [List.getElem_concat_length _ _ _ hklen, hklen]
    · have hstep : recLoop docName acc (line :: rest) = recLoop docName acc rest := by
        rw [recLoop, if_neg hmark]
      rw [hstep]
      exact ih acc hacc

/-- Claim C8.  When a RECOMMENDATIONS section is present, every
extracted recommendation's citation is
`"<originalName>, Section <n>"` where `n` is its 1-based position in
the result — a running counter over recommendations extracted so far
from the same reply, not a reference to a real section of the
document. -/
theorem c8_citation_ordinal (text : String) (doc : SrcDocument)
    (h : extractSection text recommendationsLabel ≠ "") :
    ∀ (k : Nat) (r : Recommendation),
      (extractRecommendations text doc)[k]? = some r →
      r.citation = doc.originalName ++ ", Section " ++ toString (k + 1) := by
  intro k r hr
  rw [extractRecommendations, if_neg h, List.getElem?_take] at hr
  by_cases hk10 : k < 10
  · rw [if_pos hk10] at hr
    rcases List.getElem?_eq_some.mp hr with ⟨hk, hget⟩
    have hinv := recLoop_citation_inv doc.originalName
      ((splitNl [] (extractSection text recommendationsLabel).data).filter
        (fun l => !(jsTrim l).isEmpty)) []
      (by intro j hj; simp at hj) k hk
    rw [List.get_eq_getElem, hget] at hinv
    exact hinv
  · rw [if_neg hk10] at hr
    exact absurd hr (by simp)

/-- Witness for `c8_citation_ordinal`: with two marker lines in the
section, the second extracted recommendation is cited as
`"site.pdf, Section 2"`. -/
theorem c8_citation_witness :
    ((extractRecommendations
        ("RECOMMENDATIONS:\nSTORMWATER: Add silt fence - Install per spec X\nQSD: Update SWPPP - File amendment")
        (⟨"site.pdf", "abc", "stormwater"⟩ : SrcDocument))[1]?).map
      (fun r => r.citation) = some ("site.pdf, Section 2") := by
  rcases hr : (extractRecommendations
      ("RECOMMENDATIONS:\nSTORMWATER: Add silt fence - Install per spec X\nQSD: Update SWPPP - File amendment")
      (⟨"site.pdf", "abc", "stormwater"⟩ : SrcDocument))[1]? with _ | r
  · exact absurd hr (by decide)
  · have hc := c8_citation_ordinal
      ("RECOMMENDATIONS:\nSTORMWATER: Add silt fence - Install per spec X\nQSD: Update SWPPP - File amendment")
      (⟨"site.pdf", "abc", "stormwater"⟩ : SrcDocument) (by decide) 1 r hr
    have hmap : (Option.map (fun r : Recommendation => r.citation) (some r)) = some r.citation := rfl
    rw [hmap, hc]
    decide

/-! ## Claim C5: the reference context -/

theorem mem_insertDesc (x d : SrcDocument) (l : List SrcDocument) :
    x ∈ insertDesc d l ↔ x = d ∨ x ∈ l := by
  induction l with
  | nil => simp [insertDesc]
  | cons e rest ih =>
    rw [insertDesc]
    split
    · simp only [List.mem_cons, ih]
      tauto
    · simp only [List.mem_cons]

theorem pairwise_insertDesc (d : SrcDocument) (l : List SrcDocument)
    (h : l.Pairwise (fun a b => b.content.length ≤ a.content.length)) :
    (insertDesc d l).Pairwise (fun a b => b.content.length ≤ a.content.length) := by
  induction l with
  | nil => simp [insertDesc]
  | cons e rest ih =>
    rw [insertDesc]
    rcases List.pairwise_cons.mp h with ⟨he, hrest⟩
    split
    · rename_i hlt
      refine List.pairwise_cons.mpr ⟨?_, ih hrest⟩
      intro y hy
      rw [mem_insertDesc] at hy
      rcases hy with rfl | hy
      · omega
      · exact he y hy
    · rename_i hnlt
      refine List.pairwise_cons.mpr ⟨?_, h⟩
      intro y hy
      rcases List.mem_cons.mp hy with rfl | hy
      · omega
      · have := he y hy
        omega

theorem mem_sortByLenDesc (x : SrcDocument) (l : List SrcDocument) :
    x ∈ sortByLenDesc l ↔ x ∈ l := by
  induction l with
  | nil => simp [sortByLenDesc]
  | cons d rest ih =>
    rw [sortByLenDesc, mem_insertDesc]
    simp [ih]

theorem pairwise_sortByLenDesc (l : List SrcDocument) :
    (sortByLenDesc l).Pairwise (fun a b => b.content.length ≤ a.content.length) := by
  induction l with
  | nil => simp [sortByLenDesc]
  | cons d rest ih =>
    rw [sortByLenDesc]
    exact pairwise_insertDesc d _ ih

/-- Claim C5 (amended).  The assembled reference context contains
exactly the documents whose content is non-empty and STRICTLY longer
than 50 characters (a 50-character document is excluded, unlike the
claim's "not below 50"), in the stable descending-by-content-length
order; the k-th document's block is introduced by the tag
`[REFERENCE: "<name>"]` — the assembler never emits `[DOC-k]` tags.
Tag assignment is deterministic: the context is a pure function of the
input list. -/
theorem c5_reference_context_amended (lib : List SrcDocument) :
    (∀ d : SrcDocument, d ∈ referenceDocs lib ↔ d ∈ lib ∧ refDocFilter d = true) ∧
    (referenceDocs lib).Pairwise (fun a b => b.content.length ≤ a.content.length) ∧
    (∀ (k : Nat) (d : SrcDocument), (referenceDocs lib)[k]? = some d →
      ∃ tail : String,
        docBlock d = "[REFERENCE: \"" ++ (docDisplayName d ++ tail)) ∧
    (referenceDocs lib = [] → buildReferenceContext lib = noReferenceDocsMsg) ∧
    (referenceDocs lib ≠ [] →
      buildReferenceContext lib =
        String.intercalate ("\n") ((referenceDocs lib).map docBlock) ++
          bmpImplementationGuide) := by
  refine ⟨?_, ?_, ?_, ?_, ?_⟩
  · intro d
    rw [referenceDocs, mem_sortByLenDesc, List.mem_filter]
  · exact pairwise_sortByLenDesc _
  · intro k d _
    refine ⟨("\"] (" ++ (d.category ++ (")\nFILE SIZE: " ++
      (kbFixed1 d.content.length ++ ("KB\nCONTENT EXTRACT: " ++
      ((⟨d.content.data.take 1500⟩ : String) ++
      ((if decide (1500 < d.content.length) then "...[FULL DOCUMENT AVAILABLE]"
        else "") ++ "\n---"))))))), ?_⟩
    simp only [docBlock, string_append_assoc]
  · intro h
    rw [buildReferenceContext, if_pos (by simp [h])]
  · intro h
    rw [buildReferenceContext, if_neg (by simp [h])]

/-- Witness for `c5_reference_context_amended` on a one-document
library whose content is 61 characters long. -/
theorem c5_reference_context_witness :
    (⟨"A", "0123456789012345678901234567890123456789012345678901234567890", "x"⟩ : SrcDocument) ∈
      referenceDocs [⟨"A", "0123456789012345678901234567890123456789012345678901234567890", "x"⟩] ∧
    (∃ tail : String,
      docBlock (⟨"A", "0123456789012345678901234567890123456789012345678901234567890", "x"⟩ : SrcDocument) =
        "[REFERENCE: \"" ++
          (docDisplayName (⟨"A", "0123456789012345678901234567890123456789012345678901234567890", "x"⟩ : SrcDocument) ++ tail)) ∧
    buildReferenceContext [(⟨"A", "0123456789012345678901234567890123456789012345678901234567890", "x"⟩ : SrcDocument)] =
      String.intercalate ("\n")
        ((referenceDocs [(⟨"A", "0123456789012345678901234567890123456789012345678901234567890", "x"⟩ : SrcDocument)]).map docBlock) ++
        bmpImplementationGuide :=
  ⟨((c5_reference_context_amended
      [⟨"A", "0123456789012345678901234567890123456789012345678901234567890", "x"⟩]).1
      ⟨"A", "0123456789012345678901234567890123456789012345678901234567890", "x"⟩).mpr
      ⟨by decide, by decide⟩,
   (c5_reference_context_amended
      [⟨"A", "0123456789012345678901234567890123456789012345678901234567890", "x"⟩]).2.2.1 0
      ⟨"A", "0123456789012345678901234567890123456789012345678901234567890", "x"⟩ (by decide),
   (c5_reference_context_amended
      [⟨"A", "0123456789012345678901234567890123456789012345678901234567890", "x"⟩]).2.2.2.2
      (by decide)⟩

/-- Counterexample to claim C5 as stated: a library with one document
of content length exactly 50 produces the "no reference documents"
sentinel (the filter keeps only length > 50, not ≥ 50), and the context
contains no `[DOC-1]` tag even though the claim requires the first
kept document to be preceded by one. -/
theorem c5_reference_context_cex :
    buildReferenceContext
        [(⟨"XYZQ", "01234567890123456789012345678901234567890123456789", "stormwater"⟩ : SrcDocument)] =
      noReferenceDocsMsg ∧
    hasSubSeq ("[DOC-1]").data
      (buildReferenceContext
        [(⟨"XYZQ", "01234567890123456789012345678901234567890123456789", "stormwater"⟩ : SrcDocument)]).data = false := by
  constructor
  · decide
  · decide

/-! ## Claims C6 and C7: the subprocess runner -/

theorem fsExists_fsRemove_self (fs : FileSystem) (p : String) :
    fsExists (fsRemove fs p) p = false := by
  simp only [fsExists, fsRemove]
  rw [Bool.eq_false_iff]
  intro hany
  rcases List.any_eq_true.mp hany with ⟨x, hx, hxp⟩
  rcases List.mem_filter.mp hx with ⟨_, hne⟩
  simp at hxp hne
  exact hne hxp

theorem fsExists_fsRemove_mono (fs : FileSystem) (p q : String)
    (h : fsExists fs p = false) : fsExists (fsRemove fs q) p = false := by
  simp only [fsExists, fsRemove] at h ⊢
  rw [Bool.eq_false_iff] at h ⊢
  intro hany
  apply h
  rcases List.any_eq_true.mp hany with ⟨x, hx, hxp⟩
  exact List.any_eq_true.mpr ⟨x, (List.mem_filter.mp hx).1, hxp⟩

/-- Claim C6.  When the spawned process does not exit within the
30-second timeout, the timeout branch kills the process and the runner
returns `success = false` with the timeout error message, and none of
the three per-session temp files (script, input data, output data)
remain in the final file-system state. -/
theorem c6_timeout_result (fs0 : FileSystem) (dir sid enhancedCode : String)
    (data : Option String) (oc : Option String)
    (pj : String → Option PyOutputJson) :
    (executeStormwaterAnalysis fs0 dir sid enhancedCode data
      ⟨ProcEvent.timedOut, oc, pj⟩).1.success = false ∧
    (executeStormwaterAnalysis fs0 dir sid enhancedCode data
      ⟨ProcEvent.timedOut, oc, pj⟩).1.error =
        some ("Python execution timed out after 30 seconds") ∧
    timeoutBranchKills ProcEvent.timedOut = true ∧
    fsExists (executeStormwaterAnalysis fs0 dir sid enhancedCode data
      ⟨ProcEvent.timedOut, oc, pj⟩).2 (scriptPathOf dir sid) = false ∧
    fsExists (executeStormwaterAnalysis fs0 dir sid enhancedCode data
      ⟨ProcEvent.timedOut, oc, pj⟩).2 (dataPathOf dir sid) = false ∧
    fsExists (executeStormwaterAnalysis fs0 dir sid enhancedCode data
      ⟨ProcEvent.timedOut, oc, pj⟩).2 (outputPathOf dir sid) = false := by
  refine ⟨rfl, rfl, rfl, ?_, ?_, ?_⟩
  · exact fsExists_fsRemove_mono _ _ _
      (fsExists_fsRemove_mono _ _ _ (fsExists_fsRemove_self _ _))
  · exact fsExists_fsRemove_mono _ _ _ (fsExists_fsRemove_self _ _)
  · exact fsExists_fsRemove_self _ _

/-- Claim C7.  When the subprocess exits with status code `c`, the
runner's `success` is `true` iff `c = 0`, and its `error` is the
trimmed stderr (or absent) — both independent of whether the output
JSON file exists or parses (third conjunct: any output-file contents
and any parser yield the same `success`/`error`).  A parse failure only
degrades the supplementary fields: `plots` becomes `[]` and
`dataAnalysis` the exit-code-derived default. -/
theorem c7_exit_code_success (fs0 : FileSystem) (dir sid enhancedCode : String)
    (data : Option String) (oc : Option String)
    (pj : String → Option PyOutputJson) (c : Option Int) (out err : String) :
    (executeStormwaterAnalysis fs0 dir sid enhancedCode data
      ⟨ProcEvent.closed c out err, oc, pj⟩).1.success = (c == some 0) ∧
    (executeStormwaterAnalysis fs0 dir sid enhancedCode data
      ⟨ProcEvent.closed c out err, oc, pj⟩).1.error =
        (if jsTrimS err = "" then none else some (jsTrimS err)) ∧
    (∀ (oc2 : Option String) (pj2 : String → Option PyOutputJson),
      (executeStormwaterAnalysis fs0 dir sid enhancedCode data
        ⟨ProcEvent.closed c out err, oc2, pj2⟩).1.success =
        (executeStormwaterAnalysis fs0 dir sid enhancedCode data
          ⟨ProcEvent.closed c out err, oc, pj⟩).1.success ∧
      (executeStormwaterAnalysis fs0 dir sid enhancedCode data
        ⟨ProcEvent.closed c out err, oc2, pj2⟩).1.error =
        (executeStormwaterAnalysis fs0 dir sid enhancedCode data
          ⟨ProcEvent.closed c out err, oc, pj⟩).1.error) ∧
    (parsedOutput fs0 dir sid enhancedCode data
        ⟨ProcEvent.closed c out err, oc, pj⟩ = none →
      (executeStormwaterAnalysis fs0 dir sid enhancedCode data
        ⟨ProcEvent.closed c out err, oc, pj⟩).1.plots = some [] ∧
      (executeStormwaterAnalysis fs0 dir sid enhancedCode data
        ⟨ProcEvent.closed c out err, oc, pj⟩).1.dataAnalysis =
        some { summary := if c == some 0 then "Python execution completed successfully"
                          else "Execution failed"
               insights := []
               recommendations := [] }) := by
  refine ⟨rfl, rfl, fun oc2 pj2 => ⟨rfl, rfl⟩, ?_⟩
  intro h
  constructor
  · simp [executeStormwaterAnalysis, h]
  · simp [executeStormwaterAnalysis, h, executePythonScript]

/-- Witness for `c7_exit_code_success`: a run whose output file holds
unparseable JSON still reports `success` from the exit code, with the
supplementary fields defaulted. -/
theorem c7_exit_code_witness :
    (executeStormwaterAnalysis [] ("/tmp") ("s1") ("print(1)") none
      ⟨ProcEvent.closed (some 0) ("ok") (""), some ("not json"), fun _ => none⟩).1.plots =
      some [] ∧
    (executeStormwaterAnalysis [] ("/tmp") ("s1") ("print(1)") none
      ⟨ProcEvent.closed (some 0) ("ok") (""), some ("not json"), fun _ => none⟩).1.dataAnalysis =
      some { summary := "Python execution completed successfully"
             insights := []
             recommendations := [] } := by
  have h := (c7_exit_code_success [] ("/tmp") ("s1") ("print(1)") none
    (some ("not json")) (fun _ => none) (some 0) ("ok") ("")).2.2.2 (by rfl)
  simpa using h

/-! ## Claim C10: plugin-manager resource caps -/

theorem sum_mapSet_le (f : AIPlugin → Nat) (l : List (String × AIPlugin))
    (k : String) (v : AIPlugin) :
    ((mapSet l k v).map (fun e => f e.2)).sum ≤
      (l.map (fun e => f e.2)).sum + f v := by
  induction l with
  | nil => simp [mapSet]
  | cons e rest ih =>
    rw [mapSet]
    split
    · simp
      omega
    · simp only [List.map_cons, List.sum_cons]
      omega

theorem sum_filter_le (f : AIPlugin → Nat) (q : String × AIPlugin → Bool)
    (l : List (String × AIPlugin)) :
    ((l.filter q).map (fun e => f e.2)).sum ≤ (l.map (fun e => f e.2)).sum := by
  induction l with
  | nil => simp
  | cons e rest ih =>
    rw [List.filter_cons]
    split
    · simp only [List.map_cons, List.sum_cons]
      omega
    · simp only [List.map_cons, List.sum_cons]
      omega

theorem applyOp_preserves (m : PluginManager) (op : ManagerOp)
    (h : getTotalMemoryUsage m ≤ maxMemoryUsage ∧
         getTotalCpuUsage m ≤ maxCpuUsage) :
    getTotalMemoryUsage (applyOp m op) ≤ maxMemoryUsage ∧
    getTotalCpuUsage (applyOp m op) ≤ maxCpuUsage := by
  cases op with
  | reg p i =>
    cases hc : canLoadPlugin m p with
    | false => simpa [applyOp, registerPlugin, hc] using h
    | true =>
      cases i with
      | false => simpa [applyOp, registerPlugin, hc] using h
      | true =>
        have hcanl := hc
        simp only [canLoadPlugin, Bool.and_eq_true, decide_eq_true_eq] at hcanl
        have hreg : applyOp m (ManagerOp.reg p true) = ⟨mapSet m.plugins p.id p⟩ := by
          simp [applyOp, registerPlugin, hc]
        rw [hreg]
        exact ⟨le_trans (sum_mapSet_le (fun a => a.memoryUsage) m.plugins p.id p) hcanl.1,
               le_trans (sum_mapSet_le (fun a => a.cpuUsage) m.plugins p.id p) hcanl.2⟩
  | unreg pid s =>
    cases hfind : m.plugins.find? (fun e => e.1 == pid) with
    | none => simpa [applyOp, unregisterPlugin, hfind] using h
    | some e =>
      cases s with
      | false => simpa [applyOp, unregisterPlugin, hfind] using h
      | true =>
        have hrw : applyOp m (ManagerOp.unreg pid true) =
            ⟨m.plugins.filter (fun e => e.1 != pid)⟩ := by
          simp [applyOp, unregisterPlugin, hfind]
        rw [hrw]
        exact ⟨le_trans (sum_filter_le (fun a => a.memoryUsage) _ _) h.1,
               le_trans (sum_filter_le (fun a => a.cpuUsage) _ _) h.2⟩

theorem foldl_applyOp_preserves (ops : List ManagerOp) : ∀ m : PluginManager,
    getTotalMemoryUsage m ≤ maxMemoryUsage ∧ getTotalCpuUsage m ≤ maxCpuUsage →
    getTotalMemoryUsage (ops.foldl applyOp m) ≤ maxMemoryUsage ∧
    getTotalCpuUsage (ops.foldl applyOp m) ≤ maxCpuUsage := by
  induction ops with
  | nil => intro m h; simpa using h
  | cons op rest ih =>
    intro m h
    rw [List.foldl_cons]
    exact ih (applyOp m op) (applyOp_preserves m op h)

/-- Claim C10.  Assuming each plugin's `getResourceUsage` reports its
declared constants, every registry state reachable by register and
unregister calls keeps the summed memory usage ≤ 4096 MB and the summed
CPU usage ≤ 80 %; and whenever admitting a plugin would exceed a cap
(`canLoadPlugin` is false), `registerPlugin` returns `false` with the
registry unchanged — the check precedes `initialize`, so the rejected
plugin is neither initialized nor added. -/
theorem c10_resource_invariant :
    (∀ ops : List ManagerOp,
      getTotalMemoryUsage (runOps ops) ≤ maxMemoryUsage ∧
      getTotalCpuUsage (runOps ops) ≤ maxCpuUsage) ∧
    (∀ (m : PluginManager) (p : AIPlugin) (initOk : Bool),
      canLoadPlugin m p = false → registerPlugin m p initOk = (false, m)) := by
  constructor
  · intro ops
    exact foldl_applyOp_preserves ops PluginManager.empty
      (by simp [getTotalMemoryUsage, getTotalCpuUsage, PluginManager.empty])
  · intro m p i h
    simp [registerPlugin, h]

/-- Witness for `c10_resource_invariant`: a concrete sequence that
registers a 2048 MB plugin, then rejects a 3000 MB plugin that would
exceed the 4096 MB cap. -/
theorem c10_resource_witness :
    getTotalMemoryUsage (runOps [ManagerOp.reg ⟨"a", 2048, 40⟩ true]) ≤ maxMemoryUsage ∧
    registerPlugin (runOps [ManagerOp.reg ⟨"a", 2048, 40⟩ true]) ⟨"b", 3000, 10⟩ true =
      (false, runOps [ManagerOp.reg ⟨"a", 2048, 40⟩ true]) :=
  ⟨(c10_resource_invariant.1 [ManagerOp.reg ⟨"a", 2048, 40⟩ true]).1,
   c10_resource_invariant.2 (runOps [ManagerOp.reg ⟨"a", 2048, 40⟩ true])
     ⟨"b", 3000, 10⟩ true (by decide)⟩

end StormwaterAI
